import Mathlib

/-!
Verification of the dual-buffer matrix type in `src/matrix.h`.

Shallow embedding conventions:
* A C++ `Matrix` object is modelled by the structure `Matrix` below.  The two
  raw pointers `double* data` / `double* dev_data` are modelled as
  `Option (List ℚ)`: `none` is the null pointer, `some l` is an allocated
  buffer holding the list of element values.  IEEE-754 doubles are modelled as
  exact rationals; every operation verified here only copies, permutes,
  subtracts and compares values, so exact arithmetic is faithful.
* The `int rows` / `int cols` fields are modelled as `ℕ`: they are fixed
  non-negative at construction and every claim quantifies over non-negative
  dimensions only.
* `malloc`ed uninitialized memory is modelled as a buffer of zeros; every
  verified property only reads cells that were written first.
* `free`/`cudaFree` cannot be observed directly in a pure model, so
  `FreeHost`/`FreeDevice` return the new state *paired with a `Bool`* that is
  `true` exactly when the underlying `free`/`cudaFree` call was executed.
* `cudaMemcpy(dst, src, Size()*sizeof(double))` between a host and a device
  buffer of `Size()` elements is modelled as replacing the destination buffer
  contents with the source list.
-/

namespace MatrixH

/-- Model of `struct Matrix` (src/matrix.h, lines 64-244): host buffer `data`,
device buffer `dev_data` (both nullable), and the dimensions.  The
default-constructed matrix `Matrix()` is `{}`: both pointers null, rows = cols = 0. -/
structure Matrix where
  data : Option (List ℚ) := none
  dev_data : Option (List ℚ) := none
  rows : Nat := 0
  cols : Nat := 0
deriving DecidableEq, Repr

namespace Matrix

/-- The sized constructor `Matrix(int inCols, int inRows)`: parameter order is
columns-then-rows; no buffers are allocated. -/
def construct (inCols inRows : Nat) : Matrix :=
  { cols := inCols, rows := inRows }

/-- `Size()`: `rows * cols`. -/
def Size (m : Matrix) : Nat := m.rows * m.cols

/-- `At(i, j)`: row-major read `data[i * cols + j]` from the host buffer.
Reading through a null pointer or out of range is undefined behaviour in the
source; the model returns 0 there, and every theorem below restricts to
populated in-range reads. -/
def At (m : Matrix) (i j : Nat) : ℚ :=
  (m.data.getD []).getD (i * m.cols + j) 0

/-- `FreeHost()`: `if (data != nullptr) { free(data); data = nullptr; }`.
The returned `Bool` records whether `free` was called. -/
def FreeHost (m : Matrix) : Matrix × Bool :=
  match m.data with
  | none => (m, false)
  | some _ => ({ m with data := none }, true)

/-- `FreeDevice()`: `if (dev_data != nullptr) { cudaFree(dev_data); dev_data = nullptr; }`.
The returned `Bool` records whether `cudaFree` was called. -/
def FreeDevice (m : Matrix) : Matrix × Bool :=
  match m.dev_data with
  | none => (m, false)
  | some _ => ({ m with dev_data := none }, true)

/-- `AllocHost()`: `FreeHost()` then `data = malloc(Size()*sizeof(double))`;
the fresh uninitialized buffer is modelled as `Size()` zeros. -/
def AllocHost (m : Matrix) : Matrix :=
  { (m.FreeHost).1 with data := some (List.replicate m.Size 0) }

/-- `AllocDevice()`: `FreeDevice()` then `cudaMalloc(&dev_data, Size()*sizeof(double))`;
the fresh uninitialized buffer is modelled as `Size()` zeros. -/
def AllocDevice (m : Matrix) : Matrix :=
  { (m.FreeDevice).1 with dev_data := some (List.replicate m.Size 0) }

/-- `Transposed()` (private, src/matrix.h lines 219-228): mallocs a temporary
buffer `t` of `Size()` doubles and runs
`for i < rows: for j < cols: t[IDX2C(i,j,rows)] = At(i,j)` where
`IDX2C(i,j,ld) = j*ld + i`; returns `t`. -/
def Transposed (m : Matrix) : List ℚ :=
  (List.range m.rows).foldl
    (fun t i =>
      (List.range m.cols).foldl
        (fun t j => t.set (j * m.rows + i) (m.At i j)) t)
    (List.replicate m.Size 0)

/-- `IntoDevMatrix()`: allocate the device buffer if null, then
`cudaMemcpy(dev_data, data, Size()*sizeof(double), HostToDevice)`. -/
def IntoDevMatrix (m : Matrix) : Matrix :=
  let m1 := if m.dev_data = none then m.AllocDevice else m
  { m1 with dev_data := m1.data }

/-- `IntoDevMatrix_ColMajor()`: allocate the device buffer if null, then copy
the temporary `Transposed()` buffer to the device and free the temporary. -/
def IntoDevMatrix_ColMajor (m : Matrix) : Matrix :=
  let m1 := if m.dev_data = none then m.AllocDevice else m
  { m1 with dev_data := some m1.Transposed }

/-- `FromDevMatrix()`: allocate the host buffer if null, then
`cudaMemcpy(data, dev_data, Size()*sizeof(double), DeviceToHost)`. -/
def FromDevMatrix (m : Matrix) : Matrix :=
  let m1 := if m.data = none then m.AllocHost else m
  { m1 with data := m1.dev_data }

/-- `FromDevMatrix_ColMajor()`: allocate the host buffer if null, memcpy the
device buffer into `data`, then `fixed = Transposed(); free(data); data = fixed`. -/
def FromDevMatrix_ColMajor (m : Matrix) : Matrix :=
  let m1 := if m.data = none then m.AllocHost else m
  let m2 := { m1 with data := m1.dev_data }
  { m2 with data := some m2.Transposed }

/-- Move assignment `b = std::move(a)` (src/matrix.h lines 89-104): `b` first
runs `FreeHost(); FreeDevice();`, then copies all four fields from `a`, then
nulls `a`'s two pointers.  Returns the new states `(b', a')`. -/
def moveAssign (b a : Matrix) : Matrix × Matrix :=
  let b1 := (b.FreeHost).1
  let b2 := (b1.FreeDevice).1
  let b3 : Matrix :=
    { b2 with data := a.data, dev_data := a.dev_data, cols := a.cols, rows := a.rows }
  (b3, { a with data := none, dev_data := none })

/-- Default tolerance `1e-3` of `IsDeltaEqual`. -/
def defaultDelta : ℚ := 1 / 1000

/-- `IsDeltaEqual(other, delta)`: `false` if `cols != other.cols || rows != other.rows`;
otherwise loop `i` over `[0, Size())` returning `false` as soon as
`abs(data[i] - other.data[i]) > delta`, and `true` if no element exceeds it. -/
def IsDeltaEqual (m other : Matrix) (delta : ℚ) : Bool :=
  if m.cols ≠ other.cols ∨ m.rows ≠ other.rows then
    false
  else
    (List.range m.Size).all fun i =>
      !decide (|(m.data.getD []).getD i 0 - (other.data.getD []).getD i 0| > delta)

/-- The write sequence performed by the double loop of `Transposed()`, in loop
order: for each `i < rows`, `j < cols`, write value `At(i,j)` to position
`IDX2C(i,j,rows) = j*rows + i`. -/
def transposeWrites (m : Matrix) : List (Nat × ℚ) :=
  (List.range m.rows).flatMap fun i =>
    (List.range m.cols).map fun j => (j * m.rows + i, m.At i j)

end Matrix

/-- A sequence of array writes `t[w.1] = w.2`, performed left to right; used
to characterise the double loop of `Transposed()`. -/
def setAll (t : List ℚ) (ws : List (Nat × ℚ)) : List ℚ :=
  ws.foldl (fun t w => t.set w.1 w.2) t

/-! ## Helper lemmas about list writes

`Transposed()` fills its `malloc`ed buffer with a nest of indexed writes; the
lemmas below characterise a `foldl` of `List.set` over a list of
(position, value) writes. -/

theorem setAll_nil (t : List ℚ) : setAll t [] = t := rfl

theorem setAll_cons (t : List ℚ) (w : Nat × ℚ) (ws : List (Nat × ℚ)) :
    setAll t (w :: ws) = setAll (t.set w.1 w.2) ws := rfl

theorem setAll_length (ws : List (Nat × ℚ)) (t : List ℚ) :
    (setAll t ws).length = t.length := by
  induction ws generalizing t with
  | nil => rfl
  | cons w ws ih => rw [setAll_cons, ih, List.length_set]

/-- Positions never written keep the initial buffer's value. -/
theorem setAll_getD_of_not_written (ws : List (Nat × ℚ)) (t : List ℚ) (p : Nat)
    (h : ∀ w ∈ ws, w.1 ≠ p) :
    (setAll t ws).getD p 0 = t.getD p 0 := by
  induction ws generalizing t with
  | nil => rfl
  | cons w ws ih =>
      rw [setAll_cons, ih _ fun w' hw' => h w' (List.mem_cons_of_mem _ hw')]
      have hne : w.1 ≠ p := h w (List.mem_cons_self ..)
      simp [List.getD_eq_getElem?_getD, List.getElem?_set_ne hne]

/-- If `(p, v)` is among the writes and every write that targets `p` writes
the same value `v`, the final buffer holds `v` at `p`. -/
theorem setAll_getD_of_written (ws : List (Nat × ℚ)) (t : List ℚ) (p : Nat) (v : ℚ)
    (hp : p < t.length) (hmem : (p, v) ∈ ws)
    (huniq : ∀ w ∈ ws, w.1 = p → w.2 = v) :
    (setAll t ws).getD p 0 = v := by
  induction ws generalizing t with
  | nil => cases hmem
  | cons w ws ih =>
      rw [setAll_cons]
      by_cases hex : ∃ w' ∈ ws, w'.1 = p
      · obtain ⟨⟨q, u⟩, hw', hq⟩ := hex
        have hu : u = v := huniq (q, u) (List.mem_cons_of_mem _ hw') hq
        subst hq; subst hu
        exact ih _ (by rw [List.length_set]; exact hp)
          hw' fun w' h' => huniq w' (List.mem_cons_of_mem _ h')
      · push_neg at hex
        have hw : w = (p, v) := by
          rcases List.mem_cons.1 hmem with h | h
          · exact h.symm
          · exact absurd rfl (hex (p, v) h)
        subst hw
        rw [setAll_getD_of_not_written ws _ p hex]
        simp [List.getD_eq_getElem?_getD, List.getElem?_set_self, hp]

theorem foldl_flatMap_eq {α β γ : Type} (l : List α) (g : α → List β)
    (f : γ → β → γ) (init : γ) :
    (l.flatMap g).foldl f init = l.foldl (fun acc a => (g a).foldl f acc) init := by
  induction l generalizing init with
  | nil => rfl
  | cons a l ih => simp [List.foldl_append, ih]

namespace Matrix

theorem Transposed_eq_setAll (m : Matrix) :
    m.Transposed = setAll (List.replicate m.Size 0) m.transposeWrites := by
  unfold Transposed transposeWrites setAll
  rw [foldl_flatMap_eq]
  simp only [List.foldl_map]

/-- The column-major position map `(i, j) ↦ j*rows + i` is injective on
`i < rows`. -/
theorem colmajor_pos_inj {rows i i' j j' : Nat} (hi : i < rows) (hi' : i' < rows)
    (h : j * rows + i = j' * rows + i') : i = i' ∧ j = j' := by
  have hmod : i = i' := by
    have h1 : (i + j * rows) % rows = i := by
      rw [Nat.add_mul_mod_self_right, Nat.mod_eq_of_lt hi]
    have h2 : (i' + j' * rows) % rows = i' := by
      rw [Nat.add_mul_mod_self_right, Nat.mod_eq_of_lt hi']
    rw [← h1, ← h2, Nat.add_comm i, Nat.add_comm i', h]
  refine ⟨hmod, ?_⟩
  subst hmod
  have hrows : 0 < rows := Nat.lt_of_le_of_lt (Nat.zero_le _) hi
  have : j * rows = j' * rows := by omega
  exact Nat.eq_of_mul_eq_mul_right hrows this

theorem colmajor_pos_lt {rows cols i j : Nat} (hi : i < rows) (hj : j < cols) :
    j * rows + i < rows * cols := by
  calc j * rows + i < (j + 1) * rows := by rw [Nat.succ_mul]; omega
    _ ≤ cols * rows := Nat.mul_le_mul_right _ hj
    _ = rows * cols := Nat.mul_comm ..

theorem Transposed_length (m : Matrix) : m.Transposed.length = m.Size := by
  rw [Transposed_eq_setAll, setAll_length, List.length_replicate]

/-- The buffer returned by `Transposed()` holds `At(i,j)` at position
`j*rows + i`: it is the column-major encoding of the host matrix. -/
theorem Transposed_getD (m : Matrix) (i j : Nat) (hi : i < m.rows) (hj : j < m.cols) :
    m.Transposed.getD (j * m.rows + i) 0 = m.At i j := by
  rw [Transposed_eq_setAll]
  apply setAll_getD_of_written
  · rw [List.length_replicate]
    exact colmajor_pos_lt hi hj
  · simp only [transposeWrites, List.mem_flatMap, List.mem_map, List.mem_range]
    exact ⟨i, hi, j, hj, rfl⟩
  · rintro ⟨q, u⟩ hw hq
    simp only [transposeWrites, List.mem_flatMap, List.mem_map, List.mem_range] at hw
    obtain ⟨i', hi', j', hj', heq⟩ := hw
    have h1 : j' * m.rows + i' = q := congrArg Prod.fst heq
    have h2 : m.At i' j' = u := congrArg Prod.snd heq
    subst hq
    obtain ⟨rfl, rfl⟩ := colmajor_pos_inj hi' hi h1
    exact h2.symm

/-! ### Shape lemmas for the individual member functions -/

theorem FreeHost_of_none {m : Matrix} (h : m.data = none) : m.FreeHost = (m, false) := by
  unfold FreeHost; rw [h]

theorem FreeDevice_of_none {m : Matrix} (h : m.dev_data = none) :
    m.FreeDevice = (m, false) := by
  unfold FreeDevice; rw [h]

theorem FreeHost_fst (m : Matrix) : (m.FreeHost).1 = { m with data := none } := by
  obtain ⟨d, dd, r, c⟩ := m; cases d <;> rfl

theorem FreeDevice_fst (m : Matrix) : (m.FreeDevice).1 = { m with dev_data := none } := by
  obtain ⟨d, dd, r, c⟩ := m; cases dd <;> rfl

theorem FreeHost_snd (m : Matrix) : (m.FreeHost).2 = m.data.isSome := by
  obtain ⟨d, dd, r, c⟩ := m; cases d <;> rfl

theorem FreeDevice_snd (m : Matrix) : (m.FreeDevice).2 = m.dev_data.isSome := by
  obtain ⟨d, dd, r, c⟩ := m; cases dd <;> rfl

/-- Changing only the device pointer does not change `Transposed()`, which
reads only `data`, `rows` and `cols`. -/
theorem Transposed_update_dev (m : Matrix) (o : Option (List ℚ)) :
    ({ m with dev_data := o } : Matrix).Transposed = m.Transposed := rfl

/-- `IntoDevMatrix()` leaves everything but the device buffer unchanged and
makes the device buffer a verbatim copy of the host buffer. -/
theorem IntoDevMatrix_eq (m : Matrix) :
    m.IntoDevMatrix = { m with dev_data := m.data } := by
  unfold IntoDevMatrix AllocDevice
  cases hd : m.dev_data <;> simp [FreeDevice_fst, hd]

/-- `FromDevMatrix()` leaves everything but the host buffer unchanged and
makes the host buffer a verbatim copy of the device buffer. -/
theorem FromDevMatrix_eq (m : Matrix) :
    m.FromDevMatrix = { m with data := m.dev_data } := by
  unfold FromDevMatrix AllocHost
  cases hd : m.data <;> simp [FreeHost_fst, hd]

/-- `IntoDevMatrix_ColMajor()` leaves everything but the device buffer
unchanged and stores the `Transposed()` buffer on the device. -/
theorem IntoDevMatrix_ColMajor_eq (m : Matrix) :
    m.IntoDevMatrix_ColMajor = { m with dev_data := some m.Transposed } := by
  unfold IntoDevMatrix_ColMajor AllocDevice
  cases hd : m.dev_data <;>
    simp [FreeDevice_fst, hd, Transposed_update_dev]

/-- `FromDevMatrix_ColMajor()` copies the device buffer into the host buffer
and then replaces the host buffer by `Transposed()` of the copied state. -/
theorem FromDevMatrix_ColMajor_eq (m : Matrix) :
    m.FromDevMatrix_ColMajor =
      { m with data := some ({ m with data := m.dev_data } : Matrix).Transposed } := by
  unfold FromDevMatrix_ColMajor AllocHost
  cases hd : m.data <;> simp [FreeHost_fst, hd]

theorem At_of_some {m : Matrix} {l : List ℚ} (hd : m.data = some l) (i j : Nat) :
    m.At i j = l.getD (i * m.cols + j) 0 := by
  unfold At; rw [hd, Option.getD_some]

end Matrix

theorem list_eq_of_getD (l₁ l₂ : List ℚ) (hl : l₁.length = l₂.length)
    (h : ∀ k, k < l₁.length → l₁.getD k 0 = l₂.getD k 0) : l₁ = l₂ := by
  apply List.ext_getElem hl
  intro i h₁ h₂
  have hi := h i h₁
  rwa [List.getD_eq_getElem?_getD, List.getD_eq_getElem?_getD,
    List.getElem?_eq_getElem h₁, List.getElem?_eq_getElem h₂,
    Option.getD_some, Option.getD_some] at hi

namespace Matrix

/-- On a square matrix, applying the row-major-interpretation transpose to the
column-major buffer produced by the first transpose restores the original
host contents: `Transposed` is an involution exactly because `rows = cols`. -/
theorem double_transpose_square (m m2 : Matrix) (h : List ℚ)
    (hsq : m.rows = m.cols) (hd : m.data = some h) (hl : h.length = m.Size)
    (h2d : m2.data = some m.Transposed) (h2r : m2.rows = m.rows)
    (h2c : m2.cols = m.cols) :
    m2.Transposed = h := by
  apply list_eq_of_getD
  · rw [Transposed_length, hl]
    unfold Size
    rw [h2r, h2c]
  · intro k hk
    rw [Transposed_length] at hk
    unfold Size at hk
    rw [h2r, h2c, ← hsq] at hk
    have hn : 0 < m.rows := by
      rcases Nat.eq_zero_or_pos m.rows with h0 | h0
      · rw [h0] at hk; omega
      · exact h0
    have hi : k % m.rows < m.rows := Nat.mod_lt _ hn
    have hj : k / m.rows < m.rows := Nat.div_lt_of_lt_mul hk
    have hdec : k / m.rows * m.rows + k % m.rows = k := by
      rw [Nat.mul_comm]; exact Nat.div_add_mod k m.rows
    have step1 := Transposed_getD m2 (k % m.rows) (k / m.rows)
      (by rw [h2r]; exact hi) (by rw [h2c, ← hsq]; exact hj)
    rw [h2r, hdec] at step1
    rw [step1, At_of_some h2d, h2c, ← hsq]
    have step2 := Transposed_getD m (k / m.rows) (k % m.rows) hj
      (by rw [← hsq]; exact hi)
    rw [step2, At_of_some hd, ← hsq, hdec]

end Matrix

/-! ## Claim theorems -/

/-- C6: `Matrix(inCols, inRows)` takes columns first: the result has
`cols = inCols`, `rows = inRows`, `Size() = rows*cols`, and both the host and
the device pointer null; the default-constructed matrix has `rows = cols = 0`
and both pointers null. -/
theorem construct_spec (inCols inRows : Nat) :
    (Matrix.construct inCols inRows).cols = inCols ∧
    (Matrix.construct inCols inRows).rows = inRows ∧
    (Matrix.construct inCols inRows).Size = inRows * inCols ∧
    (Matrix.construct inCols inRows).data = none ∧
    (Matrix.construct inCols inRows).dev_data = none ∧
    ({} : Matrix).rows = 0 ∧ ({} : Matrix).cols = 0 ∧
    ({} : Matrix).data = none ∧ ({} : Matrix).dev_data = none :=
  ⟨rfl, rfl, rfl, rfl, rfl, rfl, rfl, rfl, rfl⟩

/-- C7: freeing a null buffer is a no-op (`FreeHost`/`FreeDevice` return the
matrix unchanged and call no deallocator), and after any free the
corresponding pointer is null, so a second free deallocates nothing. -/
theorem free_null_noop_no_double_free (m m' : Matrix)
    (hh : m.data = none) (hd : m.dev_data = none) :
    m.FreeHost = (m, false) ∧ m.FreeDevice = (m, false) ∧
    (m'.FreeHost).1.data = none ∧
    (m'.FreeHost).1.FreeHost = ((m'.FreeHost).1, false) ∧
    (m'.FreeDevice).1.dev_data = none ∧
    (m'.FreeDevice).1.FreeDevice = ((m'.FreeDevice).1, false) := by
  refine ⟨Matrix.FreeHost_of_none hh, Matrix.FreeDevice_of_none hd, ?_, ?_, ?_, ?_⟩
  · rw [Matrix.FreeHost_fst]
  · exact Matrix.FreeHost_of_none (by rw [Matrix.FreeHost_fst])
  · rw [Matrix.FreeDevice_fst]
  · exact Matrix.FreeDevice_of_none (by rw [Matrix.FreeDevice_fst])

theorem free_null_noop_no_double_free_witness :
    ({} : Matrix).data = none ∧ ({} : Matrix).dev_data = none ∧
    (({} : Matrix).FreeHost = ({}, false) ∧ ({} : Matrix).FreeDevice = ({}, false) ∧
      ((⟨some [1], some [2], 1, 1⟩ : Matrix).FreeHost).1.data = none ∧
      ((⟨some [1], some [2], 1, 1⟩ : Matrix).FreeHost).1.FreeHost
        = (((⟨some [1], some [2], 1, 1⟩ : Matrix).FreeHost).1, false) ∧
      ((⟨some [1], some [2], 1, 1⟩ : Matrix).FreeDevice).1.dev_data = none ∧
      ((⟨some [1], some [2], 1, 1⟩ : Matrix).FreeDevice).1.FreeDevice
        = (((⟨some [1], some [2], 1, 1⟩ : Matrix).FreeDevice).1, false)) :=
  ⟨rfl, rfl, free_null_noop_no_double_free {} ⟨some [1], some [2], 1, 1⟩ rfl rfl⟩

/-- C2: after `b = std::move(a)` the destination holds `a`'s host pointer,
device pointer, rows and cols; `b`'s previously owned buffers were released
(the free calls fire exactly when `b` owned the respective buffer); and `a`
is left with both pointers null, so destroying `a` afterwards frees nothing. -/
theorem move_assign_spec (b a : Matrix) :
    (Matrix.moveAssign b a).1.data = a.data ∧
    (Matrix.moveAssign b a).1.dev_data = a.dev_data ∧
    (Matrix.moveAssign b a).1.rows = a.rows ∧
    (Matrix.moveAssign b a).1.cols = a.cols ∧
    (b.FreeHost).2 = b.data.isSome ∧
    ((b.FreeHost).1.FreeDevice).2 = b.dev_data.isSome ∧
    (Matrix.moveAssign b a).2.data = none ∧
    (Matrix.moveAssign b a).2.dev_data = none ∧
    (Matrix.moveAssign b a).2.FreeHost = ((Matrix.moveAssign b a).2, false) ∧
    (Matrix.moveAssign b a).2.FreeDevice = ((Matrix.moveAssign b a).2, false) := by
  refine ⟨rfl, rfl, rfl, rfl, Matrix.FreeHost_snd b, ?_, rfl, rfl,
    Matrix.FreeHost_of_none rfl, Matrix.FreeDevice_of_none rfl⟩
  rw [Matrix.FreeDevice_snd, Matrix.FreeHost_fst]

/-- C9: move assignment nulls only the source's two pointers: the moved-from
matrix keeps its previous `rows` and `cols`, and its `Size()` is still the
original `rows*cols`, not 0. -/
theorem move_assign_source_keeps_dims (b a : Matrix) :
    (Matrix.moveAssign b a).2.rows = a.rows ∧
    (Matrix.moveAssign b a).2.cols = a.cols ∧
    (Matrix.moveAssign b a).2.Size = a.rows * a.cols :=
  ⟨rfl, rfl, rfl⟩

/-- C3: `IntoDevMatrix()` followed by `FromDevMatrix()` leaves the host buffer
holding exactly the original values (both copies are verbatim), and the
dimensions unchanged. -/
theorem rowmajor_roundtrip (m : Matrix) (a : List ℚ) (h : m.data = some a) :
    ((m.IntoDevMatrix).FromDevMatrix).data = some a ∧
    ((m.IntoDevMatrix).FromDevMatrix).rows = m.rows ∧
    ((m.IntoDevMatrix).FromDevMatrix).cols = m.cols := by
  rw [Matrix.IntoDevMatrix_eq, Matrix.FromDevMatrix_eq]
  exact ⟨h, rfl, rfl⟩

theorem rowmajor_roundtrip_witness :
    (⟨some [3, 7], none, 1, 2⟩ : Matrix).data = some [3, 7] ∧
    ((((⟨some [3, 7], none, 1, 2⟩ : Matrix).IntoDevMatrix).FromDevMatrix).data
        = some [3, 7] ∧
      (((⟨some [3, 7], none, 1, 2⟩ : Matrix).IntoDevMatrix).FromDevMatrix).rows
        = (⟨some [3, 7], none, 1, 2⟩ : Matrix).rows ∧
      (((⟨some [3, 7], none, 1, 2⟩ : Matrix).IntoDevMatrix).FromDevMatrix).cols
        = (⟨some [3, 7], none, 1, 2⟩ : Matrix).cols) :=
  ⟨rfl, rowmajor_roundtrip ⟨some [3, 7], none, 1, 2⟩ [3, 7] rfl⟩

/-- C4: `IsDeltaEqual` returns `false` whenever the dimensions differ, and for
matching dimensions returns `true` iff every element pair `k < rows*cols`
satisfies `|data[k] - other.data[k]| ≤ delta`. -/
theorem isdeltaequal_spec (m o : Matrix) (a b : List ℚ) (δ : ℚ)
    (ha : m.data = some a) (hb : o.data = some b)
    (_hla : a.length = m.Size) (_hlb : b.length = o.Size) :
    (m.rows ≠ o.rows ∨ m.cols ≠ o.cols → m.IsDeltaEqual o δ = false) ∧
    (m.rows = o.rows → m.cols = o.cols →
      (m.IsDeltaEqual o δ = true ↔
        ∀ k < m.Size, |a.getD k 0 - b.getD k 0| ≤ δ)) := by
  constructor
  · intro hdim
    unfold Matrix.IsDeltaEqual
    rw [if_pos (by tauto)]
  · intro hr hc
    unfold Matrix.IsDeltaEqual
    rw [if_neg (by simp [hr, hc]), List.all_eq_true]
    simp only [List.mem_range, ha, hb, Option.getD_some, Bool.not_eq_true',
      decide_eq_false_iff_not, not_lt]

theorem isdeltaequal_spec_witness :
    (⟨some [0, 1], none, 1, 2⟩ : Matrix).data = some [0, 1] ∧
    (⟨some [0, 2], none, 1, 2⟩ : Matrix).data = some [0, 2] ∧
    ([(0 : ℚ), 1].length = (⟨some [0, 1], none, 1, 2⟩ : Matrix).Size) ∧
    ([(0 : ℚ), 2].length = (⟨some [0, 2], none, 1, 2⟩ : Matrix).Size) ∧
    (((⟨some [0, 1], none, 1, 2⟩ : Matrix).rows ≠ (⟨some [0, 2], none, 1, 2⟩ : Matrix).rows ∨
        (⟨some [0, 1], none, 1, 2⟩ : Matrix).cols ≠ (⟨some [0, 2], none, 1, 2⟩ : Matrix).cols →
        (⟨some [0, 1], none, 1, 2⟩ : Matrix).IsDeltaEqual ⟨some [0, 2], none, 1, 2⟩ 2 = false) ∧
      ((⟨some [0, 1], none, 1, 2⟩ : Matrix).rows = (⟨some [0, 2], none, 1, 2⟩ : Matrix).rows →
        (⟨some [0, 1], none, 1, 2⟩ : Matrix).cols = (⟨some [0, 2], none, 1, 2⟩ : Matrix).cols →
        ((⟨some [0, 1], none, 1, 2⟩ : Matrix).IsDeltaEqual ⟨some [0, 2], none, 1, 2⟩ 2 = true ↔
          ∀ k < (⟨some [0, 1], none, 1, 2⟩ : Matrix).Size,
            |[(0 : ℚ), 1].getD k 0 - [(0 : ℚ), 2].getD k 0| ≤ 2))) :=
  ⟨rfl, rfl, rfl, rfl,
    isdeltaequal_spec ⟨some [0, 1], none, 1, 2⟩ ⟨some [0, 2], none, 1, 2⟩
      [0, 1] [0, 2] 2 rfl rfl rfl rfl⟩

/-- C5: `IsDeltaEqual` is reflexive: a populated matrix compared with itself
yields `true` for every non-negative tolerance, in particular for the default
tolerance `1e-3`. -/
theorem isdeltaequal_refl (m : Matrix) (a : List ℚ) (δ : ℚ)
    (_h : m.data = some a) (hδ : 0 ≤ δ) :
    m.IsDeltaEqual m δ = true ∧ m.IsDeltaEqual m Matrix.defaultDelta = true := by
  have key : ∀ δ' : ℚ, 0 ≤ δ' → m.IsDeltaEqual m δ' = true := by
    intro δ' hδ'
    unfold Matrix.IsDeltaEqual
    rw [if_neg (by simp), List.all_eq_true]
    intro x _
    simp only [sub_self, abs_zero, Bool.not_eq_true', decide_eq_false_iff_not, not_lt]
    exact hδ'
  exact ⟨key δ hδ, key _ (by norm_num [Matrix.defaultDelta])⟩

theorem isdeltaequal_refl_witness :
    (⟨some [4, 9], none, 1, 2⟩ : Matrix).data = some [4, 9] ∧ (0 : ℚ) ≤ 1 ∧
    ((⟨some [4, 9], none, 1, 2⟩ : Matrix).IsDeltaEqual ⟨some [4, 9], none, 1, 2⟩ 1 = true ∧
      (⟨some [4, 9], none, 1, 2⟩ : Matrix).IsDeltaEqual ⟨some [4, 9], none, 1, 2⟩
        Matrix.defaultDelta = true) :=
  ⟨rfl, by norm_num,
    isdeltaequal_refl ⟨some [4, 9], none, 1, 2⟩ [4, 9] 1 rfl (by norm_num)⟩

/-- C8: `IntoDevMatrix_ColMajor()` leaves the host buffer (pointer and all
element values) and the dimensions unchanged, and fills the device buffer with
the column-major layout: device offset `j*rows + i` holds the host element at
offset `i*cols + j` for all `i < rows`, `j < cols`. -/
theorem push_colmajor_frame (m : Matrix) (h : List ℚ)
    (hd : m.data = some h) (_hl : h.length = m.Size) :
    (m.IntoDevMatrix_ColMajor).data = m.data ∧
    (m.IntoDevMatrix_ColMajor).rows = m.rows ∧
    (m.IntoDevMatrix_ColMajor).cols = m.cols ∧
    (m.IntoDevMatrix_ColMajor).dev_data = some m.Transposed ∧
    (∀ i j, i < m.rows → j < m.cols →
      m.Transposed.getD (j * m.rows + i) 0 = h.getD (i * m.cols + j) 0) := by
  rw [Matrix.IntoDevMatrix_ColMajor_eq]
  refine ⟨rfl, rfl, rfl, rfl, ?_⟩
  intro i j hi hj
  rw [Matrix.Transposed_getD m i j hi hj, Matrix.At_of_some hd]

theorem push_colmajor_frame_witness :
    (⟨some [1, 2, 3, 4, 5, 6], none, 2, 3⟩ : Matrix).data = some [1, 2, 3, 4, 5, 6] ∧
    ([(1 : ℚ), 2, 3, 4, 5, 6].length = (⟨some [1, 2, 3, 4, 5, 6], none, 2, 3⟩ : Matrix).Size) ∧
    (⟨some [1, 2, 3, 4, 5, 6], none, 2, 3⟩ : Matrix).Transposed.getD
        (2 * (⟨some [1, 2, 3, 4, 5, 6], none, 2, 3⟩ : Matrix).rows + 1) 0
      = [(1 : ℚ), 2, 3, 4, 5, 6].getD
        (1 * (⟨some [1, 2, 3, 4, 5, 6], none, 2, 3⟩ : Matrix).cols + 2) 0 :=
  ⟨rfl, rfl,
    (push_colmajor_frame ⟨some [1, 2, 3, 4, 5, 6], none, 2, 3⟩
      [1, 2, 3, 4, 5, 6] rfl rfl).2.2.2.2 1 2 (by decide) (by decide)⟩

/-- C10: for a square matrix (`rows = cols`) with a populated host buffer,
`IntoDevMatrix_ColMajor()` followed by `FromDevMatrix_ColMajor()` restores the
host buffer exactly: the transpose pass applied twice is the identity when the
matrix is square. -/
theorem colmajor_roundtrip_square (m : Matrix) (h : List ℚ)
    (hsq : m.rows = m.cols) (hd : m.data = some h) (hl : h.length = m.Size) :
    ((m.IntoDevMatrix_ColMajor).FromDevMatrix_ColMajor).data = some h := by
  rw [Matrix.IntoDevMatrix_ColMajor_eq, Matrix.FromDevMatrix_ColMajor_eq]
  exact congrArg some (Matrix.double_transpose_square m _ h hsq hd hl rfl rfl rfl)

theorem colmajor_roundtrip_square_witness :
    (⟨some [1, 2, 3, 4], none, 2, 2⟩ : Matrix).rows
        = (⟨some [1, 2, 3, 4], none, 2, 2⟩ : Matrix).cols ∧
    (⟨some [1, 2, 3, 4], none, 2, 2⟩ : Matrix).data = some [1, 2, 3, 4] ∧
    ([(1 : ℚ), 2, 3, 4].length = (⟨some [1, 2, 3, 4], none, 2, 2⟩ : Matrix).Size) ∧
    ((((⟨some [1, 2, 3, 4], none, 2, 2⟩ : Matrix).IntoDevMatrix_ColMajor).FromDevMatrix_ColMajor).data
        = some [1, 2, 3, 4]) :=
  ⟨rfl, rfl, rfl,
    colmajor_roundtrip_square ⟨some [1, 2, 3, 4], none, 2, 2⟩ [1, 2, 3, 4] rfl rfl rfl⟩

/-- C1 (code bug): the claimed rectangular round trip fails.  For the 2×3
matrix `[[1,2,3],[4,5,6]]` (rows = 2, cols = 3, host data `[1,2,3,4,5,6]`),
`IntoDevMatrix_ColMajor()` followed by `FromDevMatrix_ColMajor()` leaves the
host buffer holding `[1,5,4,3,2,6]`, not the original contents:
`FromDevMatrix_ColMajor` re-transposes with the host `rows`/`cols`
interpretation, which inverts the push only when `rows = cols`. -/
theorem colmajor_roundtrip_rect_failure :
    (((⟨some [1, 2, 3, 4, 5, 6], none, 2, 3⟩ : Matrix).IntoDevMatrix_ColMajor).FromDevMatrix_ColMajor).data
        = some [1, 5, 4, 3, 2, 6] ∧
    (((⟨some [1, 2, 3, 4, 5, 6], none, 2, 3⟩ : Matrix).IntoDevMatrix_ColMajor).FromDevMatrix_ColMajor).data
        ≠ some [1, 2, 3, 4, 5, 6] := by
  constructor
  · decide
  · decide

end MatrixH
